import Mathlib

/-!
Verification of the AWS tag-audit tool (scripts/tag-audit.py).

The development shallowly embeds the tool's logic: the pure compliance
evaluator `check_compliance`, the resource-fetch adapters with their
failure scoping (modelled by `Option`-valued fetch results), the CSV
report generation, and the console summary computation.  Python strings
are Lean `String`s, Python dicts of tags are association lists in
insertion order, Python floats arising from the score arithmetic are
exact here and are modelled by `ℚ`.
-/

namespace TagAudit

/-- Whitespace class stripped by Python `str.strip()` (ASCII part:
space, tab, newline, carriage return, vertical tab, form feed). -/
def pyIsSpace (c : Char) : Bool :=
  c = ' ' || c = '\t' || c = '\n' || c = '\r' || c = '\x0b' || c = '\x0c'

/-- Embedding of Python `str.strip()`: drop leading and trailing
whitespace characters. -/
def pyStrip (s : String) : String :=
  String.mk (((s.data.dropWhile pyIsSpace).reverse.dropWhile pyIsSpace).reverse)

/-- A resource's tag map: association list from tag name to tag value,
in dict insertion order (a Python dict has pairwise distinct keys;
where a fact depends on that, it is an explicit hypothesis). -/
abbrev TagMap := List (String × String)

/-- Result record of `check_compliance`. -/
structure ComplianceResult where
  compliant : Bool
  missing_tags : List String
  compliance_score : ℚ
deriving DecidableEq, Repr

/-- The fixed required tag list set in `TagAuditor.__init__`. -/
def required_tags : List String :=
  ["Environment", "Owner", "CostCenter", "Application"]

/-- The loop condition of `check_compliance`:
`required_tag not in tags or not tags[required_tag].strip()`. -/
def tagMissing (tags : TagMap) (r : String) : Bool :=
  match tags.lookup r with
  | none => true
  | some v => pyStrip v == ""

/-- Embedding of `TagAuditor.check_compliance`. -/
def check_compliance (tags : TagMap) : ComplianceResult :=
  let missing_tags := required_tags.filter (fun r => tagMissing tags r)
  { compliant := missing_tags.length == 0
    missing_tags := missing_tags
    compliance_score :=
      ((required_tags.length : ℚ) - missing_tags.length) / required_tags.length }

/-- Embedding of Python `s.split(sep)` on character lists for a
one-character separator: `"".split(sep)` is `[""]`, and the result
always has one more group than there are separator occurrences. -/
def pySplitCharAux (sep : Char) : List Char → List (List Char)
  | [] => [[]]
  | c :: cs =>
    match pySplitCharAux sep cs with
    | [] => [[]]
    | g :: gs => if c = sep then [] :: g :: gs else (c :: g) :: gs

/-- Embedding of Python `s.split(sep)` for a one-character separator. -/
def pySplitChar (sep : Char) (s : String) : List String :=
  (pySplitCharAux sep s.data).map String.mk

/-- Embedding of Python `sep.join(parts)` on character lists for a
one-character separator. -/
def joinSep (sep : Char) : List (List Char) → List Char
  | [] => []
  | [x] => x
  | x :: y :: rest => x ++ sep :: joinSep sep (y :: rest)

/-- Embedding of Python `','.join(parts)`. -/
def pyJoinComma (l : List String) : String :=
  String.mk (joinSep ',' (l.map String.data))

/-- Embedding of Python `s.split('/')[-1]` (a Python `split` result is
never empty, so the default is never taken). -/
def lastSlashComponent (s : String) : String :=
  (pySplitChar '/' s).getLastD ""

/-- Python `str(bool)`, as serialized into the CSV for `Compliant`. -/
def pyBoolStr (b : Bool) : String := if b then "True" else "False"

/-- Two-digit decimal rendering of a number below 100. -/
def twoDigits (n : Nat) : String := (if n < 10 then "0" else "") ++ toString n

/-- Embedding of the Python format `f"{x:.2%}"` for the scores produced
by `check_compliance`, which are exact multiples of a hundredth of a
percent, so every float rounding mode agrees. -/
def formatPercent2 (q : ℚ) : String :=
  let n : Nat := (q * 10000).floor.toNat
  toString (n / 100) ++ "." ++ twoDigits (n % 100) ++ "%"

/-- JSON escaping of one character, covering the escape classes that
can occur in the tag strings considered here. -/
def jsonEscapeChar (c : Char) : String :=
  if c = '"' then "\\\""
  else if c = '\\' then "\\\\"
  else if c = '\n' then "\\n"
  else if c = '\t' then "\\t"
  else if c = '\r' then "\\r"
  else String.singleton c

/-- JSON string literal for `s`. -/
def jsonQuote (s : String) : String :=
  "\"" ++ String.join (s.data.map jsonEscapeChar) ++ "\""

/-- Embedding of `json.dumps(tags, separators=(',', ':'))`: a compact
JSON object in dict insertion order. -/
def jsonDumps (tags : TagMap) : String :=
  "\x7b" ++ String.intercalate ","
      (tags.map (fun kv => jsonQuote kv.1 ++ ":" ++ jsonQuote kv.2))
    ++ "\x7d"

/-- One row of the audit report, as appended by every adapter. -/
structure AuditRow where
  resourceType : String
  resourceId : String
  resourceArn : String
  region : String
  compliant : Bool
  complianceScoreStr : String
  missingTagsStr : String
  existingTagsStr : String
  tagCount : Nat
deriving DecidableEq, Repr

/-- Common shape of the result dict appended by every adapter: the
`ComplianceScore`, `MissingTags` and `ExistingTags` fields are the
serialized forms of the `check_compliance` output and the tag map, and
`TagCount` is `len(tags)`. -/
def mkRow (resourceType resourceId resourceArn region : String)
    (tags : TagMap) : AuditRow :=
  let compliance := check_compliance tags
  { resourceType := resourceType
    resourceId := resourceId
    resourceArn := resourceArn
    region := region
    compliant := compliance.compliant
    complianceScoreStr := formatPercent2 compliance.compliance_score
    missingTagsStr := pyJoinComma compliance.missing_tags
    existingTagsStr := jsonDumps tags
    tagCount := tags.length }

/-- One ECS service as seen by `audit_ecs_resources`: its ARN and the
outcome of its `list_tags_for_resource` call (`none` models a raised
exception). -/
structure EcsService where
  arn : String
  tagsFetch : Option TagMap
deriving DecidableEq, Repr

/-- One ECS cluster: its ARN, the outcome of its tag lookup, and the
outcome of `list_services` for it (`none` models a raised exception). -/
structure EcsCluster where
  arn : String
  tagsFetch : Option TagMap
  servicesFetch : Option (List EcsService)
deriving DecidableEq, Repr

/-- One CloudWatch log group: its name and the outcome of
`list_tags_log_group`. -/
structure LogGroup where
  name : String
  tagsFetch : Option TagMap
deriving DecidableEq, Repr

/-- One CloudWatch dashboard: its name and the outcome of
`list_tags_for_resource`. -/
structure Dashboard where
  name : String
  tagsFetch : Option TagMap
deriving DecidableEq, Repr

/-- One NAT gateway: `describe_nat_gateways` embeds the tags in the
listing itself, so there is no per-resource fetch that can fail. -/
structure NatGateway where
  natGatewayId : String
  tags : TagMap
deriving DecidableEq, Repr

/-- One load balancer: its ARN, its name, and the merged tag map from
its `describe_tags` call (`none` models a raised exception). -/
structure LoadBalancer where
  arn : String
  name : String
  tagsFetch : Option TagMap
deriving DecidableEq, Repr

/-- The observable slice of the cloud environment the run sees: each
category listing is `Option`-valued, `none` modelling an exception
raised by the listing call itself. -/
structure AwsEnv where
  region : String
  ecsClusters : Option (List EcsCluster)
  logGroupPages : Option (List (List LogGroup))
  dashboards : Option (List Dashboard)
  natGateways : Option (List NatGateway)
  loadBalancers : Option (List LoadBalancer)
deriving DecidableEq, Repr

/-- Rows contributed by one ECS service: a failed tag lookup is caught
by the inner `except`, logged, and the service is skipped. -/
def auditEcsService (region : String) (s : EcsService) : List AuditRow :=
  match s.tagsFetch with
  | none => []
  | some tags =>
    [mkRow "ECS::Service" (lastSlashComponent s.arn) s.arn region tags]

/-- Rows contributed by one ECS cluster: a failed cluster tag lookup
skips the whole cluster (its services are never listed, since the
exception aborts the cluster's `try` block); once the cluster row is
appended, a failed `list_services` loses only the services, and each
service failure is scoped to that service. -/
def auditEcsCluster (region : String) (c : EcsCluster) : List AuditRow :=
  match c.tagsFetch with
  | none => []
  | some tags =>
    mkRow "ECS::Cluster" (lastSlashComponent c.arn) c.arn region tags ::
      match c.servicesFetch with
      | none => []
      | some svcs => svcs.flatMap (auditEcsService region)

/-- Embedding of `TagAuditor.audit_ecs_resources`: a failed
`list_clusters` yields no rows for the whole category. -/
def audit_ecs_resources (env : AwsEnv) : List AuditRow :=
  match env.ecsClusters with
  | none => []
  | some cs => cs.flatMap (auditEcsCluster env.region)

/-- Rows contributed by one log group. -/
def auditLogGroup (region : String) (g : LogGroup) : List AuditRow :=
  match g.tagsFetch with
  | none => []
  | some tags =>
    [mkRow "Logs::LogGroup" g.name
      ("arn:aws:logs:" ++ region ++ ":*:log-group:" ++ g.name) region tags]

/-- Rows contributed by one dashboard. -/
def auditDashboard (region : String) (d : Dashboard) : List AuditRow :=
  match d.tagsFetch with
  | none => []
  | some tags =>
    [mkRow "CloudWatch::Dashboard" d.name
      ("arn:aws:cloudwatch:" ++ region ++ ":*:dashboard/" ++ d.name)
      region tags]

/-- Embedding of `TagAuditor.audit_cloudwatch_resources`: log groups
(paginated) then dashboards, each section with its own catch-all. -/
def audit_cloudwatch_resources (env : AwsEnv) : List AuditRow :=
  (match env.logGroupPages with
   | none => []
   | some ps => ps.flatMap (fun page => page.flatMap (auditLogGroup env.region)))
  ++ (match env.dashboards with
      | none => []
      | some ds => ds.flatMap (auditDashboard env.region))

/-- Rows contributed by one NAT gateway (tags come embedded in the
listing, so a row is always produced). -/
def auditNatGateway (region : String) (n : NatGateway) : List AuditRow :=
  [mkRow "EC2::NatGateway" n.natGatewayId
    ("arn:aws:ec2:" ++ region ++ ":*:natgateway/" ++ n.natGatewayId)
    region n.tags]

/-- Rows contributed by one load balancer. -/
def auditLoadBalancer (region : String) (lb : LoadBalancer) : List AuditRow :=
  match lb.tagsFetch with
  | none => []
  | some tags =>
    [mkRow "ElasticLoadBalancingV2::LoadBalancer" lb.name lb.arn region tags]

/-- Embedding of `TagAuditor.audit_networking_resources`: NAT gateways
then load balancers, each section with its own catch-all. -/
def audit_networking_resources (env : AwsEnv) : List AuditRow :=
  (match env.natGateways with
   | none => []
   | some ns => ns.flatMap (auditNatGateway env.region))
  ++ (match env.loadBalancers with
      | none => []
      | some lbs => lbs.flatMap (auditLoadBalancer env.region))

/-- Per-resource-type counters accumulated by `print_summary`. -/
structure TypeStats where
  total : Nat
  compliant : Nat
deriving DecidableEq, Repr

/-- Insertion-ordered dict update, as Python's
`d[key] = f(d.get(key, default))` behaves: update the existing entry
in place, or append a new one at the end. -/
def bumpBy {β : Type} (upd : β → β) (init : β) (key : String) :
    List (String × β) → List (String × β)
  | [] => [(key, init)]
  | (k, v) :: rest =>
    if k = key then (k, upd v) :: rest
    else (k, v) :: bumpBy upd init key rest

/-- One step of the resource-type breakdown loop: create the zero
entry if absent, then increment `total` and, when the row is
compliant, `compliant`. -/
def bumpType (ty : String) (isCompliant : Bool) :
    List (String × TypeStats) → List (String × TypeStats) :=
  bumpBy
    (fun st => ⟨st.total + 1,
      if isCompliant then st.compliant + 1 else st.compliant⟩)
    ⟨1, if isCompliant then 1 else 0⟩ ty

/-- The `resource_types` dict of `print_summary`, in insertion order. -/
def resourceTypeStats (results : List AuditRow) : List (String × TypeStats) :=
  results.foldl (fun acc r => bumpType r.resourceType r.compliant acc) []

/-- One step of the missing-tag tally:
`missing_tags_count[tag] = missing_tags_count.get(tag, 0) + 1`. -/
def bumpTag (t : String) : List (String × Nat) → List (String × Nat) :=
  bumpBy (· + 1) 1 t

/-- Tag names contributed by one row to the tally: the `MissingTags`
field is split on commas when nonempty (`if result['MissingTags']:`),
and an empty field contributes nothing. -/
def rowMissingOccurrences (r : AuditRow) : List String :=
  if r.missingTagsStr = "" then [] else pySplitChar ',' r.missingTagsStr

/-- The `missing_tags_count` dict of `print_summary`, in insertion
order (first occurrence first). -/
def missingTagCounts (results : List AuditRow) : List (String × Nat) :=
  (results.flatMap rowMissingOccurrences).foldl (fun acc t => bumpTag t acc) []

/-- The breakdown as iterated: `sorted(resource_types.items())`, i.e.
ascending in the type label (labels are pairwise distinct, so sorting
the pairs is sorting by label); `insertionSort` is stable, like
Python's sort. -/
def sortedTypeStats (results : List AuditRow) : List (String × TypeStats) :=
  (resourceTypeStats results).insertionSort (fun a b => a.1 ≤ b.1)

/-- The tally as printed:
`sorted(missing_tags_count.items(), key=lambda x: x[1], reverse=True)`,
a stable sort descending in the count. -/
def sortedMissingTagCounts (results : List AuditRow) : List (String × Nat) :=
  (missingTagCounts results).insertionSort (fun a b => b.2 ≤ a.2)

/-- The console summary actually printed by `print_summary`, as a
structured value: each field holds what the corresponding `print`
lines interpolate, in print order. -/
structure Summary where
  auditDate : String
  region : String
  requiredDisplay : String
  reportFile : String
  totalResources : Nat
  compliantResources : Nat
  complianceRate : ℚ
  byResourceType : List (String × TypeStats)
  missingTagTally : List (String × Nat)
  recommendationsShown : Bool
deriving DecidableEq, Repr

/-- Embedding of `TagAuditor.print_summary`: with an empty result list
the function logs a warning and returns before printing anything
(`if not results: ... return`), modelled by `none`; otherwise the
printed summary is returned. -/
def print_summary (region now outputFile : String)
    (results : List AuditRow) : Option Summary :=
  if results.isEmpty then none
  else
    let total := results.length
    let compliant := results.countP (fun r => r.compliant)
    let rate : ℚ := if 0 < total then (compliant : ℚ) / total * 100 else 0
    some
      { auditDate := now
        region := region
        requiredDisplay := String.intercalate ", " required_tags
        reportFile := outputFile
        totalResources := total
        compliantResources := compliant
        complianceRate := rate
        byResourceType := sortedTypeStats results
        missingTagTally := sortedMissingTagCounts results
        recommendationsShown := decide (rate < 95) }

/-- The CSV header row written by `csv.DictWriter.writeheader`. -/
def fieldnames : List String :=
  ["ResourceType", "ResourceId", "ResourceArn", "Region",
   "Compliant", "ComplianceScore", "MissingTags", "TagCount", "ExistingTags"]

/-- One CSV record, fields serialized in `fieldnames` order. -/
def toCsvRecord (r : AuditRow) : List String :=
  [r.resourceType, r.resourceId, r.resourceArn, r.region,
   pyBoolStr r.compliant, r.complianceScoreStr, r.missingTagsStr,
   toString r.tagCount, r.existingTagsStr]

/-- Observable outcome of `TagAuditor.generate_report`: the collected
rows, the CSV file contents (`none` when nothing was written), and the
printed summary (`none` when nothing was printed). -/
structure Report where
  allResults : List AuditRow
  csvFile : Option (List (List String))
  summary : Option Summary
deriving DecidableEq, Repr

/-- Embedding of `TagAuditor.generate_report`: concatenate the three
adapters' rows in invocation order, write the CSV only when at least
one row was collected (`if all_results:`), then run `print_summary`. -/
def generate_report (env : AwsEnv) (now outputFile : String) : Report :=
  let all_results :=
    audit_ecs_resources env ++ audit_cloudwatch_resources env
      ++ audit_networking_resources env
  { allResults := all_results
    csvFile :=
      if all_results.isEmpty then none
      else some (fieldnames :: all_results.map toCsvRecord)
    summary := print_summary env.region now outputFile all_results }

/-- A row as appended by some adapter: all adapters build their result
dicts in the common `mkRow` shape. -/
def IsAdapterRow (r : AuditRow) : Prop :=
  ∃ ty id arn region tags, r = mkRow ty id arn region tags

/-- A fully tagged sample map (all four required tags non-blank). -/
def fullTags : TagMap :=
  [("Environment", "prod"), ("Owner", "team-a"),
   ("CostCenter", "123"), ("Application", "api")]

/-- Sample ECS service whose tag lookup succeeds. -/
def svcA : EcsService :=
  ⟨"arn:aws:ecs:us-east-1:1:service/demo/svcA", some [("Environment", "prod")]⟩

/-- Sample ECS service whose tag lookup raises. -/
def svcBad : EcsService :=
  ⟨"arn:aws:ecs:us-east-1:1:service/demo/svcBad", none⟩

/-- Sample ECS service with an empty tag map. -/
def svcB : EcsService :=
  ⟨"arn:aws:ecs:us-east-1:1:service/demo/svcB", some []⟩

/-- Sample ECS cluster containing a failing service between two
succeeding ones. -/
def clusterDemo : EcsCluster :=
  ⟨"arn:aws:ecs:us-east-1:1:cluster/demo", some [("Environment", "prod")],
    some [svcA, svcBad, svcB]⟩

/-- Sample environment in which listing the ECS category fails while
the other categories produce rows. -/
def envNoEcs : AwsEnv :=
  ⟨"us-east-1", none, some [[⟨"lg-1", some []⟩]], some [],
    some [⟨"nat-1", fullTags⟩], some []⟩

/-- Sample environment in which every category lists successfully but
is empty, so no rows at all are collected. -/
def envEmpty : AwsEnv :=
  ⟨"us-east-1", some [], some [], some [], some [], some []⟩

/-- Sample row list: a fully tagged (compliant) cluster and an
untagged (non-compliant) NAT gateway. -/
def sampleRows : List AuditRow :=
  [mkRow "ECS::Cluster" "demo" "arn:aws:ecs:us-east-1:1:cluster/demo"
    "us-east-1" fullTags,
   mkRow "EC2::NatGateway" "nat-1"
    "arn:aws:ec2:us-east-1:*:natgateway/nat-1" "us-east-1" []]

/-! ## Theorems -/

theorem missing_tags_sublist (t : TagMap) :
    (check_compliance t).missing_tags.Sublist required_tags :=
  List.filter_sublist _

theorem missing_tags_length_le (t : TagMap) :
    (check_compliance t).missing_tags.length ≤ 4 :=
  (missing_tags_sublist t).length_le

theorem score_eq (t : TagMap) :
    (check_compliance t).compliance_score
      = ((4 : ℚ) - (check_compliance t).missing_tags.length) / 4 := rfl

theorem check_compliance_nil :
    check_compliance []
      = { compliant := false, missing_tags := required_tags,
          compliance_score := 0 } := by
  have h1 : (check_compliance []).compliant = false := by decide
  have h2 : (check_compliance []).missing_tags = required_tags := by decide
  have h3 : (check_compliance []).compliance_score = 0 := by
    rw [score_eq, h2]
    norm_num [required_tags]
  calc check_compliance []
      = ⟨(check_compliance []).compliant, (check_compliance []).missing_tags,
          (check_compliance []).compliance_score⟩ := rfl
    _ = _ := by rw [h1, h2, h3]

theorem pySplitCharAux_ne_nil (sep : Char) (xs : List Char) :
    pySplitCharAux sep xs ≠ [] := by
  cases xs with
  | nil => simp [pySplitCharAux]
  | cons c cs =>
    simp only [pySplitCharAux]
    cases h : pySplitCharAux sep cs with
    | nil => simp
    | cons g gs =>
      by_cases hc : c = sep <;> simp [hc]

theorem pySplitCharAux_append (sep : Char) (x ys : List Char)
    (hx : sep ∉ x) :
    pySplitCharAux sep (x ++ ys)
      = (pySplitCharAux sep ys).modifyHead (x ++ ·) := by
  induction x with
  | nil =>
    simp only [List.nil_append]
    cases h : pySplitCharAux sep ys <;> simp [List.modifyHead]
  | cons c x ih =>
    have hc : c ≠ sep := fun h => hx (h ▸ List.mem_cons_self c x)
    have hx2 : sep ∉ x := fun h => hx (List.mem_cons_of_mem c h)
    cases h : pySplitCharAux sep ys with
    | nil => exact absurd h (pySplitCharAux_ne_nil sep ys)
    | cons g gs =>
      have ih2 := ih hx2
      rw [h] at ih2
      simp only [List.cons_append, pySplitCharAux, List.append_eq]
      rw [ih2]
      simp [List.modifyHead, hc]

theorem pySplitCharAux_nosep (sep : Char) (x : List Char) (hx : sep ∉ x) :
    pySplitCharAux sep x = [x] := by
  have h := pySplitCharAux_append sep x [] hx
  simpa [pySplitCharAux] using h

theorem pySplitCharAux_joinSep (sep : Char) :
    ∀ ls : List (List Char), ls ≠ [] → (∀ x ∈ ls, sep ∉ x) →
      pySplitCharAux sep (joinSep sep ls) = ls := by
  intro ls
  induction ls with
  | nil => intro h; exact absurd rfl h
  | cons x rest ih =>
    intro _ hall
    cases rest with
    | nil =>
      exact pySplitCharAux_nosep sep x (hall x (List.mem_cons_self x []))
    | cons y rest2 =>
      have hx : sep ∉ x := hall x (List.mem_cons_self x _)
      have hrest : ∀ z ∈ y :: rest2, sep ∉ z :=
        fun z hz => hall z (List.mem_cons_of_mem x hz)
      have ihr := ih (by simp) hrest
      show pySplitCharAux sep (x ++ sep :: joinSep sep (y :: rest2)) = _
      rw [pySplitCharAux_append sep x _ hx]
      have hnn := pySplitCharAux_ne_nil sep (joinSep sep (y :: rest2))
      cases h : pySplitCharAux sep (joinSep sep (y :: rest2)) with
      | nil => exact absurd h hnn
      | cons g gs =>
        rw [h] at ihr
        simp only [pySplitCharAux, h]
        simp [ihr]

/-- Round trip of the comma join and split used for the `MissingTags`
CSV field: a nonempty list of comma-free strings is recovered
exactly. -/
theorem pySplitChar_pyJoinComma (l : List String)
    (hne : l ≠ []) (hfree : ∀ x ∈ l, ',' ∉ x.data) :
    pySplitChar ',' (pyJoinComma l) = l := by
  have hmapne : l.map String.data ≠ [] := by simpa using hne
  have hfree2 : ∀ x ∈ l.map String.data, ',' ∉ x := by
    intro x hx
    rcases List.mem_map.mp hx with ⟨s, hs, rfl⟩
    exact hfree s hs
  unfold pySplitChar pyJoinComma
  rw [show (String.mk (joinSep ',' (l.map String.data))).data
        = joinSep ',' (l.map String.data) from rfl]
  rw [pySplitCharAux_joinSep ',' (l.map String.data) hmapne hfree2]
  have hid : String.mk ∘ String.data = id := funext fun s => rfl
  rw [List.map_map, hid, List.map_id]

theorem pyJoinComma_nil : pyJoinComma [] = "" := rfl

/-- The comma join of a nonempty list of nonempty strings is
nonempty. -/
theorem pyJoinComma_ne_empty (l : List String)
    (hne : l ≠ []) (hnonempty : ∀ x ∈ l, x ≠ "") :
    pyJoinComma l ≠ "" := by
  cases l with
  | nil => exact absurd rfl hne
  | cons x rest =>
    cases rest with
    | nil =>
      have hx : x ≠ "" := hnonempty x (List.mem_cons_self x [])
      simp only [pyJoinComma, List.map, joinSep]
      intro h
      apply hx
      have : x.data = [] := by
        have := congrArg String.data h
        simpa using this
      cases x
      simp_all
    | cons y rest2 =>
      simp only [pyJoinComma, List.map, joinSep]
      intro h
      have := congrArg String.data h
      simp at this

/-- C1: for every TagMap `t`, `check_compliance t` returns
`missing_tags` equal to exactly those required tag names that are
either not a key of `t` or whose value strips to the empty string;
the list is a sublist (hence duplicate-free subset, in required-set
order) of the required list, and it depends only on the lookup
function of `t`, not on its insertion order. -/
theorem check_compliance_missing_tags_spec (t : TagMap) :
    (∀ r, r ∈ (check_compliance t).missing_tags ↔
        (r ∈ required_tags ∧
          (t.lookup r = none ∨ ∃ v, t.lookup r = some v ∧ pyStrip v = "")))
    ∧ (check_compliance t).missing_tags.Sublist required_tags
    ∧ (check_compliance t).missing_tags.Nodup
    ∧ ∀ t2 : TagMap, (∀ k, t.lookup k = t2.lookup k) →
        check_compliance t = check_compliance t2 := by
  refine ⟨?_, missing_tags_sublist t, ?_, ?_⟩
  · intro r
    simp only [check_compliance, List.mem_filter, tagMissing]
    constructor
    · rintro ⟨hr, hmiss⟩
      refine ⟨hr, ?_⟩
      cases h : t.lookup r with
      | none => exact Or.inl rfl
      | some v =>
        rw [h] at hmiss
        exact Or.inr ⟨v, rfl, by simpa using hmiss⟩
    · rintro ⟨hr, hmiss⟩
      refine ⟨hr, ?_⟩
      rcases hmiss with h | ⟨v, hv, hblank⟩
      · simp [h]
      · simp [hv, hblank]
  · exact (missing_tags_sublist t).nodup (by decide)
  · intro t2 h
    have hpred : ∀ r ∈ required_tags, tagMissing t r = tagMissing t2 r := by
      intro r _
      simp [tagMissing, h r]
    simp [check_compliance, List.filter_congr hpred]

/-- Closed instantiation of `check_compliance_missing_tags_spec`: the
insertion-order independence applied to two orderings of the same
two-tag map. -/
theorem check_compliance_missing_tags_spec_witness :
    check_compliance [("Owner", "a"), ("Environment", "prod")]
      = check_compliance [("Environment", "prod"), ("Owner", "a")] := by
  apply (check_compliance_missing_tags_spec
      [("Owner", "a"), ("Environment", "prod")]).2.2.2
  intro k
  by_cases h1 : k = "Owner"
  · subst h1; decide
  · by_cases h2 : k = "Environment"
    · subst h2; decide
    · have e1 : (k == "Owner") = false := beq_eq_false_iff_ne.mpr h1
      have e2 : (k == "Environment") = false := beq_eq_false_iff_ne.mpr h2
      simp [List.lookup, e1, e2]

/-- C2: the compliance score equals
`(len required - len missing) / len required`, it always lies in
`{0, 1/4, 1/2, 3/4, 1}`, and the empty tag map is valid input,
yielding score `0` with all four required tags missing. -/
theorem check_compliance_score_spec (t : TagMap) :
    (check_compliance t).compliance_score
        = ((required_tags.length : ℚ)
            - (check_compliance t).missing_tags.length) / required_tags.length
    ∧ (check_compliance t).compliance_score
        ∈ ({0, 1/4, 1/2, 3/4, 1} : Set ℚ)
    ∧ check_compliance []
        = { compliant := false, missing_tags := required_tags,
            compliance_score := 0 } := by
  refine ⟨rfl, ?_, check_compliance_nil⟩
  have hle := missing_tags_length_le t
  rw [score_eq t]
  set m := (check_compliance t).missing_tags.length with hm
  interval_cases m <;> norm_num

/-- C3: the `compliant` flag is true iff `missing_tags` is empty. -/
theorem check_compliance_compliant_iff (t : TagMap) :
    (check_compliance t).compliant = true
      ↔ (check_compliance t).missing_tags = [] := by
  simp [check_compliance]

/-- C4: the compliance score is monotonically non-increasing in the
number of missing required tags; zero missing tags score exactly `1`
and four (all) missing tags score exactly `0`. -/
theorem check_compliance_score_monotone :
    (∀ t1 t2 : TagMap,
        (check_compliance t2).missing_tags.length
            < (check_compliance t1).missing_tags.length →
        (check_compliance t1).compliance_score
          ≤ (check_compliance t2).compliance_score)
    ∧ (∀ t : TagMap, (check_compliance t).missing_tags.length = 0 →
        (check_compliance t).compliance_score = 1)
    ∧ (∀ t : TagMap, (check_compliance t).missing_tags.length = 4 →
        (check_compliance t).compliance_score = 0) := by
  refine ⟨?_, ?_, ?_⟩
  · intro t1 t2 hlt
    rw [score_eq t1, score_eq t2]
    have h2 : ((check_compliance t2).missing_tags.length : ℚ)
        ≤ (check_compliance t1).missing_tags.length := by
      exact_mod_cast hlt.le
    gcongr
  · intro t h
    rw [score_eq t, h]
    norm_num
  · intro t h
    rw [score_eq t, h]
    norm_num

/-- Closed instantiation of `check_compliance_score_monotone` at the
empty map (all four tags missing) and a fully tagged map (none
missing). -/
theorem check_compliance_score_monotone_witness :
    (check_compliance []).compliance_score
        ≤ (check_compliance fullTags).compliance_score
    ∧ (check_compliance fullTags).compliance_score = 1
    ∧ (check_compliance []).compliance_score = 0 :=
  ⟨check_compliance_score_monotone.1 [] fullTags (by decide),
   check_compliance_score_monotone.2.1 fullTags (by decide),
   check_compliance_score_monotone.2.2 [] (by decide)⟩

theorem generate_report_allResults (env : AwsEnv) (now outputFile : String) :
    (generate_report env now outputFile).allResults
      = audit_ecs_resources env ++ audit_cloudwatch_resources env
          ++ audit_networking_resources env := rfl

theorem generate_report_csvFile (env : AwsEnv) (now outputFile : String) :
    (generate_report env now outputFile).csvFile
      = if (generate_report env now outputFile).allResults.isEmpty then none
        else some (fieldnames
            :: (generate_report env now outputFile).allResults.map toCsvRecord) :=
  rfl

theorem generate_report_summary (env : AwsEnv) (now outputFile : String) :
    (generate_report env now outputFile).summary
      = print_summary env.region now outputFile
          (generate_report env now outputFile).allResults := rfl

/-- C5: a tag-lookup failure on one ECS service loses only that
service's row while the cluster's remaining services still contribute;
a failure to list the ECS category yields zero ECS rows while the
other categories' rows still make up the report; and whenever any row
was collected, every collected row appears in the written CSV. -/
theorem partial_failure_scoping :
    (∀ (region : String) (c : EcsCluster) (tags : TagMap)
        (pre post : List EcsService) (bad : EcsService),
        c.tagsFetch = some tags →
        c.servicesFetch = some (pre ++ bad :: post) →
        bad.tagsFetch = none →
        auditEcsCluster region c
          = mkRow "ECS::Cluster" (lastSlashComponent c.arn) c.arn region tags
              :: (pre.flatMap (auditEcsService region)
                  ++ post.flatMap (auditEcsService region)))
    ∧ (∀ (env : AwsEnv) (now outputFile : String),
        env.ecsClusters = none →
        audit_ecs_resources env = []
        ∧ (generate_report env now outputFile).allResults
            = audit_cloudwatch_resources env ++ audit_networking_resources env)
    ∧ (∀ (env : AwsEnv) (now outputFile : String),
        (generate_report env now outputFile).allResults ≠ [] →
        (generate_report env now outputFile).csvFile
          = some (fieldnames
              :: (generate_report env now outputFile).allResults.map
                  toCsvRecord)) := by
  refine ⟨?_, ?_, ?_⟩
  · intro region c tags pre post bad htags hsvcs hbad
    simp only [auditEcsCluster, htags, hsvcs]
    rw [List.flatMap_append, List.flatMap_cons]
    simp [auditEcsService, hbad]
  · intro env now outputFile h
    constructor
    · simp [audit_ecs_resources, h]
    · rw [generate_report_allResults]
      simp [audit_ecs_resources, h]
  · intro env now outputFile h
    rw [generate_report_csvFile]
    rw [if_neg]
    simpa [List.isEmpty_iff] using h

/-- Closed instantiation of `partial_failure_scoping`: the sample
cluster with a failing middle service, and the sample environment
whose ECS listing fails while the other categories produce rows. -/
theorem partial_failure_scoping_witness :
    (auditEcsCluster "us-east-1" clusterDemo
        = mkRow "ECS::Cluster" (lastSlashComponent clusterDemo.arn)
            clusterDemo.arn "us-east-1" [("Environment", "prod")]
          :: ([svcA].flatMap (auditEcsService "us-east-1")
              ++ [svcB].flatMap (auditEcsService "us-east-1")))
    ∧ (audit_ecs_resources envNoEcs = []
        ∧ (generate_report envNoEcs "d" "out.csv").allResults
            = audit_cloudwatch_resources envNoEcs
                ++ audit_networking_resources envNoEcs)
    ∧ (generate_report envNoEcs "d" "out.csv").csvFile
        = some (fieldnames
            :: (generate_report envNoEcs "d" "out.csv").allResults.map
                toCsvRecord) :=
  ⟨partial_failure_scoping.1 "us-east-1" clusterDemo [("Environment", "prod")]
      [svcA] [svcB] svcBad rfl rfl rfl,
   partial_failure_scoping.2.1 envNoEcs "d" "out.csv" rfl,
   partial_failure_scoping.2.2 envNoEcs "d" "out.csv"
      (List.cons_ne_nil _ _)⟩

/-- C9: the CSV file is written iff at least one row was collected:
with zero rows nothing is written, and otherwise the file is the
header row followed by one record per collected row. -/
theorem csv_written_iff_rows (env : AwsEnv) (now outputFile : String) :
    ((generate_report env now outputFile).allResults = [] →
      (generate_report env now outputFile).csvFile = none)
    ∧ ((generate_report env now outputFile).allResults ≠ [] →
      (generate_report env now outputFile).csvFile
        = some (fieldnames
            :: (generate_report env now outputFile).allResults.map
                toCsvRecord)) := by
  constructor
  · intro h
    rw [generate_report_csvFile, if_pos]
    simp [h]
  · intro h
    rw [generate_report_csvFile, if_neg]
    simpa [List.isEmpty_iff] using h

/-- Closed instantiation of `csv_written_iff_rows`: the all-empty
environment writes no file, and the sample environment with rows
writes header plus records. -/
theorem csv_written_iff_rows_witness :
    (generate_report envEmpty "d" "out.csv").csvFile = none
    ∧ (generate_report envNoEcs "d" "out.csv").csvFile
        = some (fieldnames
            :: (generate_report envNoEcs "d" "out.csv").allResults.map
                toCsvRecord) :=
  ⟨(csv_written_iff_rows envEmpty "d" "out.csv").1 rfl,
   (csv_written_iff_rows envNoEcs "d" "out.csv").2 (List.cons_ne_nil _ _)⟩

/-- C6 counterexample: a run over the all-empty environment collects
no rows, and then `print_summary` returns after its warning without
printing the summary. -/
theorem summary_not_printed_on_empty :
    (generate_report envEmpty "2025-01-01 00:00:00"
        "tag_audit_report.csv").summary = none := rfl

/-- C6 (amended): `print_summary` is invoked after report generation
on every run, but with an empty collected result list it logs a
warning and returns before printing anything; the console summary is
printed iff at least one row was collected. -/
theorem summary_printed_iff_rows (env : AwsEnv) (now outputFile : String) :
    ((generate_report env now outputFile).allResults = [] →
      (generate_report env now outputFile).summary = none)
    ∧ ((generate_report env now outputFile).allResults ≠ [] →
      ∃ s, (generate_report env now outputFile).summary = some s) := by
  constructor
  · intro h
    rw [generate_report_summary, print_summary, if_pos]
    simp [h]
  · intro h
    rw [generate_report_summary, print_summary, if_neg]
    · exact ⟨_, rfl⟩
    · simpa [List.isEmpty_iff] using h

/-- Closed instantiation of `summary_printed_iff_rows` at the
all-empty environment and at the sample environment with rows. -/
theorem summary_printed_iff_rows_witness :
    (generate_report envEmpty "d" "out.csv").summary = none
    ∧ ∃ s, (generate_report envNoEcs "d" "out.csv").summary = some s :=
  ⟨(summary_printed_iff_rows envEmpty "d" "out.csv").1 rfl,
   (summary_printed_iff_rows envNoEcs "d" "out.csv").2 (List.cons_ne_nil _ _)⟩

theorem lookup_bumpBy {β : Type} (upd : β → β) (init : β) (key k : String)
    (acc : List (String × β)) :
    (bumpBy upd init key acc).lookup k
      = if k = key then
          some (match acc.lookup k with | none => init | some v => upd v)
        else acc.lookup k := by
  induction acc with
  | nil =>
    by_cases h : k = key
    · subst h; simp [bumpBy, List.lookup]
    · simp [bumpBy, List.lookup, h, beq_eq_false_iff_ne.mpr h]
  | cons p rest ih =>
    obtain ⟨k2, v2⟩ := p
    by_cases h2 : k2 = key
    · subst h2
      by_cases h : k = k2
      · subst h; simp [bumpBy, List.lookup]
      · simp [bumpBy, List.lookup, h, beq_eq_false_iff_ne.mpr h]
    · rw [show bumpBy upd init key ((k2, v2) :: rest)
            = (k2, v2) :: bumpBy upd init key rest by
          simp [bumpBy, h2]]
      by_cases h : k = k2
      · subst h
        simp [List.lookup, h2]
      · simp [List.lookup, beq_eq_false_iff_ne.mpr h, ih]

theorem mem_fst_bumpBy {β : Type} (upd : β → β) (init : β) (key k : String)
    (acc : List (String × β)) :
    k ∈ (bumpBy upd init key acc).map Prod.fst
      ↔ k ∈ acc.map Prod.fst ∨ k = key := by
  induction acc with
  | nil => simp [bumpBy]
  | cons p rest ih =>
    obtain ⟨k2, v2⟩ := p
    by_cases h2 : k2 = key
    · subst h2
      simp [bumpBy]
      tauto
    · simp [bumpBy, h2, ih]
      tauto

theorem nodup_fst_bumpBy {β : Type} (upd : β → β) (init : β) (key : String)
    (acc : List (String × β)) (h : (acc.map Prod.fst).Nodup) :
    ((bumpBy upd init key acc).map Prod.fst).Nodup := by
  induction acc with
  | nil => simp [bumpBy]
  | cons p rest ih =>
    obtain ⟨k2, v2⟩ := p
    simp only [List.map_cons, List.nodup_cons] at h
    obtain ⟨hk2, hrest⟩ := h
    by_cases h2 : k2 = key
    · subst h2
      simp [bumpBy, hk2, hrest]
    · rw [show bumpBy upd init key ((k2, v2) :: rest)
            = (k2, v2) :: bumpBy upd init key rest by
          simp [bumpBy, h2]]
      simp only [List.map_cons, List.nodup_cons]
      refine ⟨?_, ih hrest⟩
      rw [mem_fst_bumpBy]
      rintro (hmem | rfl)
      · exact hk2 hmem
      · exact h2 rfl

theorem lookup_eq_of_mem_nodup {β : Type} {l : List (String × β)}
    {p : String × β} (hmem : p ∈ l) (hnd : (l.map Prod.fst).Nodup) :
    l.lookup p.1 = some p.2 := by
  induction l with
  | nil => simp at hmem
  | cons q rest ih =>
    obtain ⟨k2, v2⟩ := q
    simp only [List.map_cons, List.nodup_cons] at hnd
    obtain ⟨hk2, hrest⟩ := hnd
    rcases List.mem_cons.mp hmem with rfl | hmem2
    · simp [List.lookup]
    · have hne : p.1 ≠ k2 := by
        intro h
        apply hk2
        rw [← h]
        exact List.mem_map.mpr ⟨p, hmem2, rfl⟩
      simp [List.lookup, beq_eq_false_iff_ne.mpr hne, ih hmem2 hrest]

theorem mem_fst_foldl_bumpBy {α β : Type} (u : α → β → β) (i : α → β)
    (kf : α → String) (xs : List α) :
    ∀ (acc : List (String × β)) (k : String),
      k ∈ ((xs.foldl (fun a x => bumpBy (u x) (i x) (kf x) a) acc).map
            Prod.fst)
        ↔ k ∈ acc.map Prod.fst ∨ k ∈ xs.map kf := by
  induction xs with
  | nil => intro acc k; simp
  | cons x rest ih =>
    intro acc k
    rw [List.foldl_cons, ih, mem_fst_bumpBy]
    simp [List.mem_cons]
    tauto

theorem nodup_fst_foldl_bumpBy {α β : Type} (u : α → β → β) (i : α → β)
    (kf : α → String) (xs : List α) :
    ∀ acc : List (String × β), (acc.map Prod.fst).Nodup →
      (((xs.foldl (fun a x => bumpBy (u x) (i x) (kf x) a) acc)).map
          Prod.fst).Nodup := by
  induction xs with
  | nil => intro acc h; simpa
  | cons x rest ih =>
    intro acc h
    rw [List.foldl_cons]
    exact ih _ (nodup_fst_bumpBy _ _ _ _ h)

theorem lookup_bumpTag (t k : String) (acc : List (String × Nat)) :
    (bumpTag t acc).lookup k
      = if k = t then some ((acc.lookup k).getD 0 + 1)
        else acc.lookup k := by
  unfold bumpTag
  rw [lookup_bumpBy]
  by_cases h : k = t
  · subst h
    cases hl : acc.lookup k <;> simp [hl]
  · simp [h]

theorem lookup_tally_foldl (occ : List String) :
    ∀ (acc : List (String × Nat)) (k : String),
      ((occ.foldl (fun a t => bumpTag t a) acc).lookup k).getD 0
        = (acc.lookup k).getD 0 + occ.count k := by
  induction occ with
  | nil => intro acc k; simp
  | cons t rest ih =>
    intro acc k
    rw [List.foldl_cons, ih (bumpTag t acc) k, lookup_bumpTag]
    by_cases h : k = t
    · subst h
      simp [List.count_cons]
      omega
    · have : (k == t) = false := beq_eq_false_iff_ne.mpr h
      simp [h, List.count_cons, this]

theorem lookup_bumpType (ty : String) (b : Bool) (k : String)
    (acc : List (String × TypeStats)) :
    (bumpType ty b acc).lookup k
      = if k = ty then
          some ⟨((acc.lookup k).getD ⟨0, 0⟩).total + 1,
                ((acc.lookup k).getD ⟨0, 0⟩).compliant
                  + (if b then 1 else 0)⟩
        else acc.lookup k := by
  unfold bumpType
  rw [lookup_bumpBy]
  by_cases h : k = ty
  · subst h
    cases hl : acc.lookup k <;> cases b <;> simp [hl]
  · simp [h]

theorem lookup_stats_foldl (results : List AuditRow) :
    ∀ (acc : List (String × TypeStats)) (k : String),
      ((results.foldl (fun a r => bumpType r.resourceType r.compliant a)
          acc).lookup k).getD ⟨0, 0⟩
        = ⟨((acc.lookup k).getD ⟨0, 0⟩).total
              + results.countP (fun r => r.resourceType == k),
           ((acc.lookup k).getD ⟨0, 0⟩).compliant
              + results.countP (fun r =>
                  r.resourceType == k && r.compliant)⟩ := by
  induction results with
  | nil => intro acc k; simp
  | cons r rest ih =>
    intro acc k
    rw [List.foldl_cons, ih, lookup_bumpType]
    by_cases h : k = r.resourceType
    · rw [if_pos h]
      have hb : (r.resourceType == k) = true := beq_iff_eq.mpr h.symm
      cases hcb : r.compliant <;>
        simp [List.countP_cons, hb, hcb, TypeStats.mk.injEq] <;> omega
    · rw [if_neg h]
      have hb : (r.resourceType == k) = false :=
        beq_eq_false_iff_ne.mpr fun hh => h hh.symm
      simp [List.countP_cons, hb]

theorem resourceTypeStats_lookup (results : List AuditRow) (k : String) :
    ((resourceTypeStats results).lookup k).getD ⟨0, 0⟩
      = ⟨results.countP (fun r => r.resourceType == k),
         results.countP (fun r => r.resourceType == k && r.compliant)⟩ := by
  unfold resourceTypeStats
  rw [lookup_stats_foldl]
  simp [List.lookup]

theorem resourceTypeStats_nodup (results : List AuditRow) :
    ((resourceTypeStats results).map Prod.fst).Nodup := by
  unfold resourceTypeStats
  exact nodup_fst_foldl_bumpBy
    (fun (r : AuditRow) (st : TypeStats) => (⟨st.total + 1,
      if r.compliant then st.compliant + 1 else st.compliant⟩ : TypeStats))
    (fun r => (⟨1, if r.compliant then 1 else 0⟩ : TypeStats))
    (fun r => r.resourceType) results [] (by simp)

theorem resourceTypeStats_mem (results : List AuditRow) (k : String) :
    k ∈ (resourceTypeStats results).map Prod.fst
      ↔ k ∈ results.map (fun r => r.resourceType) := by
  have h := mem_fst_foldl_bumpBy
    (fun (r : AuditRow) st => (⟨st.total + 1,
      if r.compliant then st.compliant + 1 else st.compliant⟩ : TypeStats))
    (fun r => ⟨1, if r.compliant then 1 else 0⟩)
    (fun r => r.resourceType) results [] k
  simpa using h

theorem missingTagCounts_lookup (results : List AuditRow) (k : String) :
    ((missingTagCounts results).lookup k).getD 0
      = (results.flatMap rowMissingOccurrences).count k := by
  unfold missingTagCounts
  rw [lookup_tally_foldl]
  simp [List.lookup]

theorem missingTagCounts_nodup (results : List AuditRow) :
    ((missingTagCounts results).map Prod.fst).Nodup := by
  unfold missingTagCounts
  exact nodup_fst_foldl_bumpBy (fun _ => (· + 1)) (fun _ => 1) (fun t => t)
    (results.flatMap rowMissingOccurrences) [] (by simp)

theorem missingTagCounts_mem (results : List AuditRow) (k : String) :
    k ∈ (missingTagCounts results).map Prod.fst
      ↔ k ∈ results.flatMap rowMissingOccurrences := by
  have h := mem_fst_foldl_bumpBy (fun (_ : String) => (· + 1 : Nat → Nat))
    (fun _ => 1) (fun t => t) (results.flatMap rowMissingOccurrences) [] k
  simpa using h

theorem required_nonempty_strings : ∀ x ∈ required_tags, x ≠ "" := by decide

theorem required_comma_free : ∀ x ∈ required_tags, ',' ∉ x.data := by decide

theorem mkRow_missingTagsStr (ty id arn region : String) (tags : TagMap) :
    (mkRow ty id arn region tags).missingTagsStr
      = pyJoinComma (check_compliance tags).missing_tags := rfl

theorem mkRow_compliant_iff (ty id arn region : String) (tags : TagMap) :
    (mkRow ty id arn region tags).compliant = true
      ↔ (check_compliance tags).missing_tags = [] := by
  show (check_compliance tags).compliant = true ↔ _
  simp [check_compliance]

/-- For rows built by `mkRow`, splitting the serialized `MissingTags`
field recovers exactly the missing-tag list of the evaluator. -/
theorem rowMissingOccurrences_mkRow (ty id arn region : String)
    (tags : TagMap) :
    rowMissingOccurrences (mkRow ty id arn region tags)
      = (check_compliance tags).missing_tags := by
  unfold rowMissingOccurrences
  rw [mkRow_missingTagsStr]
  by_cases h : (check_compliance tags).missing_tags = []
  · simp [h, pyJoinComma_nil]
  · rw [if_neg (pyJoinComma_ne_empty _ h (fun x hx =>
      required_nonempty_strings x ((missing_tags_sublist tags).subset hx)))]
    exact pySplitChar_pyJoinComma _ h (fun x hx =>
      required_comma_free x ((missing_tags_sublist tags).subset hx))

/-- Compliant rows contribute nothing to the tally, so the occurrence
stream over all rows equals the one over the non-compliant rows. -/
theorem flatMap_occurrences_filter (results : List AuditRow)
    (hwf : ∀ r ∈ results, IsAdapterRow r) :
    results.flatMap rowMissingOccurrences
      = (results.filter (fun r => !r.compliant)).flatMap
          rowMissingOccurrences := by
  induction results with
  | nil => simp
  | cons r rest ih =>
    have hr : IsAdapterRow r := hwf r (List.mem_cons_self r rest)
    have hrest : ∀ x ∈ rest, IsAdapterRow x :=
      fun x hx => hwf x (List.mem_cons_of_mem r hx)
    rw [List.flatMap_cons, List.filter_cons]
    by_cases hc : r.compliant = true
    · obtain ⟨ty, id, arn, region, tags, rfl⟩ := hr
      have hocc : rowMissingOccurrences (mkRow ty id arn region tags)
          = [] := by
        rw [rowMissingOccurrences_mkRow]
        exact (mkRow_compliant_iff ty id arn region tags).mp hc
      simp [hc, hocc, ih hrest]
    · simp [hc, List.flatMap_cons, ih hrest]

theorem sortedTypeStats_pairwise (results : List AuditRow) :
    (sortedTypeStats results).Pairwise
      (fun a b : String × TypeStats => a.1 ≤ b.1) := by
  haveI : IsTotal (String × TypeStats) (fun a b => a.1 ≤ b.1) :=
    ⟨fun a b => le_total a.1 b.1⟩
  haveI : IsTrans (String × TypeStats) (fun a b => a.1 ≤ b.1) :=
    ⟨fun a b c h1 h2 => le_trans h1 h2⟩
  exact List.sorted_insertionSort _ _

theorem sortedTypeStats_perm (results : List AuditRow) :
    List.Perm (sortedTypeStats results) (resourceTypeStats results) :=
  List.perm_insertionSort _ _

theorem sortedMissingTagCounts_pairwise (results : List AuditRow) :
    (sortedMissingTagCounts results).Pairwise
      (fun a b : String × Nat => b.2 ≤ a.2) := by
  haveI : IsTotal (String × Nat) (fun a b => b.2 ≤ a.2) :=
    ⟨fun a b => le_total b.2 a.2⟩
  haveI : IsTrans (String × Nat) (fun a b => b.2 ≤ a.2) :=
    ⟨fun a b c h1 h2 => le_trans h2 h1⟩
  exact List.sorted_insertionSort _ _

theorem sortedMissingTagCounts_perm (results : List AuditRow) :
    List.Perm (sortedMissingTagCounts results) (missingTagCounts results) :=
  List.perm_insertionSort _ _

/-- C7: the per-resource-type breakdown of the console summary is
iterated in ascending (lexicographic) order of the type label and
carries the per-type total and compliant counts; the missing-tag tally
counts each missing tag name across exactly the non-compliant rows
(compliant rows contribute nothing) and is printed in descending order
of frequency (tie order unspecified). -/
theorem summary_breakdown_and_tally (results : List AuditRow)
    (hwf : ∀ r ∈ results, IsAdapterRow r) :
    ((sortedTypeStats results).Pairwise (fun a b => a.1 ≤ b.1))
    ∧ (∀ p ∈ sortedTypeStats results,
        p.2 = ⟨results.countP (fun r => r.resourceType == p.1),
               results.countP (fun r =>
                  r.resourceType == p.1 && r.compliant)⟩)
    ∧ (∀ ty, ty ∈ (sortedTypeStats results).map Prod.fst
        ↔ ty ∈ results.map (fun r => r.resourceType))
    ∧ (∀ p ∈ sortedMissingTagCounts results,
        p.2 = ((results.filter (fun r => !r.compliant)).flatMap
                rowMissingOccurrences).count p.1)
    ∧ (∀ name, name ∈ (sortedMissingTagCounts results).map Prod.fst
        ↔ name ∈ (results.filter (fun r => !r.compliant)).flatMap
            rowMissingOccurrences)
    ∧ ((sortedMissingTagCounts results).Pairwise
        (fun a b => b.2 ≤ a.2)) := by
  refine ⟨sortedTypeStats_pairwise results, ?_, ?_, ?_, ?_,
    sortedMissingTagCounts_pairwise results⟩
  · intro p hp
    have hp2 : p ∈ resourceTypeStats results :=
      (sortedTypeStats_perm results).mem_iff.mp hp
    have hl := lookup_eq_of_mem_nodup hp2 (resourceTypeStats_nodup results)
    have hc := resourceTypeStats_lookup results p.1
    rw [hl] at hc
    simpa using hc
  · intro ty
    rw [((sortedTypeStats_perm results).map Prod.fst).mem_iff]
    exact resourceTypeStats_mem results ty
  · intro p hp
    have hp2 : p ∈ missingTagCounts results :=
      (sortedMissingTagCounts_perm results).mem_iff.mp hp
    have hl := lookup_eq_of_mem_nodup hp2 (missingTagCounts_nodup results)
    have hc := missingTagCounts_lookup results p.1
    rw [hl] at hc
    rw [flatMap_occurrences_filter results hwf] at hc
    simpa using hc
  · intro name
    rw [((sortedMissingTagCounts_perm results).map Prod.fst).mem_iff,
      missingTagCounts_mem, flatMap_occurrences_filter results hwf]

/-- Closed instantiation of `summary_breakdown_and_tally` at the
two-row sample (one compliant cluster, one untagged NAT gateway). -/
theorem summary_breakdown_and_tally_witness :
    ((sortedTypeStats sampleRows).Pairwise (fun a b => a.1 ≤ b.1))
    ∧ (∀ p ∈ sortedTypeStats sampleRows,
        p.2 = ⟨sampleRows.countP (fun r => r.resourceType == p.1),
               sampleRows.countP (fun r =>
                  r.resourceType == p.1 && r.compliant)⟩)
    ∧ (∀ ty, ty ∈ (sortedTypeStats sampleRows).map Prod.fst
        ↔ ty ∈ sampleRows.map (fun r => r.resourceType))
    ∧ (∀ p ∈ sortedMissingTagCounts sampleRows,
        p.2 = ((sampleRows.filter (fun r => !r.compliant)).flatMap
                rowMissingOccurrences).count p.1)
    ∧ (∀ name, name ∈ (sortedMissingTagCounts sampleRows).map Prod.fst
        ↔ name ∈ (sampleRows.filter (fun r => !r.compliant)).flatMap
            rowMissingOccurrences)
    ∧ ((sortedMissingTagCounts sampleRows).Pairwise
        (fun a b => b.2 ≤ a.2)) :=
  summary_breakdown_and_tally sampleRows (by
    intro r hr
    rcases List.mem_cons.mp hr with rfl | hr2
    · exact ⟨_, _, _, _, _, rfl⟩
    · rcases List.mem_cons.mp hr2 with rfl | h3
      · exact ⟨_, _, _, _, _, rfl⟩
      · simp at h3)

theorem lookup_some_mem_fst (tags : TagMap) (k v : String)
    (h : tags.lookup k = some v) : k ∈ tags.map Prod.fst := by
  induction tags with
  | nil => simp [List.lookup] at h
  | cons p rest ih =>
    obtain ⟨k2, v2⟩ := p
    by_cases hk : k = k2
    · simp [hk]
    · simp only [List.lookup, beq_eq_false_iff_ne.mpr hk] at h
      exact List.mem_cons_of_mem _ (ih h)

/-- A compliant `mkRow` has all four required tag names among its
keys, so its `TagCount` (the dict length) is at least four. -/
theorem mkRow_compliant_tagCount (ty id arn region : String) (tags : TagMap)
    (hc : (mkRow ty id arn region tags).compliant = true) :
    4 ≤ (mkRow ty id arn region tags).tagCount := by
  have hmiss : (check_compliance tags).missing_tags = [] :=
    (mkRow_compliant_iff ty id arn region tags).mp hc
  have hreq : ∀ x ∈ required_tags, ¬(tagMissing tags x = true) := by
    have h := List.filter_eq_nil_iff.mp hmiss
    intro x hx
    simpa using h x hx
  have hmem : ∀ x ∈ required_tags, x ∈ tags.map Prod.fst := by
    intro x hx
    have hxm := hreq x hx
    rw [tagMissing] at hxm
    cases hl : tags.lookup x with
    | none => rw [hl] at hxm; simp at hxm
    | some v => exact lookup_some_mem_fst tags x v hl
  have hsub : required_tags.toFinset ⊆ (tags.map Prod.fst).toFinset := by
    intro x hx
    rw [List.mem_toFinset] at hx ⊢
    exact hmem x hx
  have h4 : required_tags.toFinset.card = 4 := by decide
  have hcard := Finset.card_le_card hsub
  have hlen : (tags.map Prod.fst).toFinset.card
      ≤ (tags.map Prod.fst).length := List.toFinset_card_le _
  have hmap : (tags.map Prod.fst).length = tags.length :=
    List.length_map _ _
  show 4 ≤ tags.length
  omega

theorem auditEcsService_rows (region : String) (s : EcsService)
    (r : AuditRow) (hr : r ∈ auditEcsService region s) : IsAdapterRow r := by
  unfold auditEcsService at hr
  rcases hts : s.tagsFetch with _ | tags <;> rw [hts] at hr
  · simp at hr
  · simp only [List.mem_singleton] at hr
    exact ⟨_, _, _, _, _, hr⟩

theorem auditEcsCluster_rows (region : String) (c : EcsCluster)
    (r : AuditRow) (hr : r ∈ auditEcsCluster region c) : IsAdapterRow r := by
  unfold auditEcsCluster at hr
  rcases hts : c.tagsFetch with _ | tags <;> rw [hts] at hr
  · simp at hr
  · rcases List.mem_cons.mp hr with rfl | hr2
    · exact ⟨_, _, _, _, _, rfl⟩
    · rcases hsv : c.servicesFetch with _ | svcs <;> rw [hsv] at hr2
      · simp at hr2
      · rcases List.mem_flatMap.mp hr2 with ⟨s, hs, hrs⟩
        exact auditEcsService_rows region s r hrs

theorem audit_ecs_rows (env : AwsEnv) (r : AuditRow)
    (hr : r ∈ audit_ecs_resources env) : IsAdapterRow r := by
  unfold audit_ecs_resources at hr
  rcases hcs : env.ecsClusters with _ | cs <;> rw [hcs] at hr
  · simp at hr
  · rcases List.mem_flatMap.mp hr with ⟨c, hc, hrc⟩
    exact auditEcsCluster_rows env.region c r hrc

theorem audit_cloudwatch_rows (env : AwsEnv) (r : AuditRow)
    (hr : r ∈ audit_cloudwatch_resources env) : IsAdapterRow r := by
  unfold audit_cloudwatch_resources at hr
  rcases List.mem_append.mp hr with h | h
  · rcases hps : env.logGroupPages with _ | ps <;> rw [hps] at h
    · simp at h
    · rcases List.mem_flatMap.mp h with ⟨page, hpage, hrp⟩
      rcases List.mem_flatMap.mp hrp with ⟨g, hg, hrg⟩
      unfold auditLogGroup at hrg
      rcases hts : g.tagsFetch with _ | tags <;> rw [hts] at hrg
      · simp at hrg
      · simp only [List.mem_singleton] at hrg
        exact ⟨_, _, _, _, _, hrg⟩
  · rcases hds : env.dashboards with _ | ds <;> rw [hds] at h
    · simp at h
    · rcases List.mem_flatMap.mp h with ⟨d, hd, hrd⟩
      unfold auditDashboard at hrd
      rcases hts : d.tagsFetch with _ | tags <;> rw [hts] at hrd
      · simp at hrd
      · simp only [List.mem_singleton] at hrd
        exact ⟨_, _, _, _, _, hrd⟩

theorem audit_networking_rows (env : AwsEnv) (r : AuditRow)
    (hr : r ∈ audit_networking_resources env) : IsAdapterRow r := by
  unfold audit_networking_resources at hr
  rcases List.mem_append.mp hr with h | h
  · rcases hns : env.natGateways with _ | ns <;> rw [hns] at h
    · simp at h
    · rcases List.mem_flatMap.mp h with ⟨n, hn, hrn⟩
      unfold auditNatGateway at hrn
      simp only [List.mem_singleton] at hrn
      exact ⟨_, _, _, _, _, hrn⟩
  · rcases hlbs : env.loadBalancers with _ | lbs <;> rw [hlbs] at h
    · simp at h
    · rcases List.mem_flatMap.mp h with ⟨lb, hlb, hrlb⟩
      unfold auditLoadBalancer at hrlb
      rcases hts : lb.tagsFetch with _ | tags <;> rw [hts] at hrlb
      · simp at hrlb
      · simp only [List.mem_singleton] at hrlb
        exact ⟨_, _, _, _, _, hrlb⟩

/-- Every row of the final report comes from some adapter, hence has
the `mkRow` shape. -/
theorem allResults_rows (env : AwsEnv) (now outputFile : String)
    (r : AuditRow)
    (hr : r ∈ (generate_report env now outputFile).allResults) :
    IsAdapterRow r := by
  rw [generate_report_allResults] at hr
  rcases List.mem_append.mp hr with h | h
  · rcases List.mem_append.mp h with h2 | h2
    · exact audit_ecs_rows env r h2
    · exact audit_cloudwatch_rows env r h2
  · exact audit_networking_rows env r h

/-- C10: every adapter-produced row whose `Compliant` field is true
has `TagCount` at least `4`, the size of the required set, because
compliance requires each required name to be a key of the tag map. -/
theorem compliant_row_tagCount (env : AwsEnv) (now outputFile : String)
    (r : AuditRow)
    (hr : r ∈ (generate_report env now outputFile).allResults)
    (hc : r.compliant = true) :
    4 ≤ r.tagCount := by
  obtain ⟨ty, id, arn, region, tags, rfl⟩ :=
    allResults_rows env now outputFile r hr
  exact mkRow_compliant_tagCount ty id arn region tags hc

/-- Closed instantiation of `compliant_row_tagCount` at the fully
tagged NAT gateway of the sample environment. -/
theorem compliant_row_tagCount_witness :
    4 ≤ (mkRow "EC2::NatGateway" "nat-1"
          "arn:aws:ec2:us-east-1:*:natgateway/nat-1" "us-east-1"
          fullTags).tagCount :=
  compliant_row_tagCount envNoEcs "d" "out.csv" _
    (List.mem_append_right _ (List.mem_append_left _
      (List.mem_cons_self _ _)))
    (by decide)

/-- C8: whenever the console summary is printed (at least one row was
collected), the remediation-suggestion block is appended iff the
overall compliance rate, as a percentage of compliant rows over total
rows, is strictly below 95. -/
theorem recommendations_iff_rate_below_95 (region now outputFile : String)
    (results : List AuditRow) (hne : results ≠ []) :
    ∃ s, print_summary region now outputFile results = some s
      ∧ (s.recommendationsShown = true
          ↔ (results.countP (fun r => r.compliant) : ℚ)
              / results.length * 100 < 95) := by
  rw [print_summary, if_neg (by simpa [List.isEmpty_iff] using hne)]
  refine ⟨_, rfl, ?_⟩
  have hpos : 0 < results.length := List.length_pos.mpr hne
  simp only [if_pos hpos, decide_eq_true_eq]

/-- Closed instantiation of `recommendations_iff_rate_below_95` at a
one-row result list whose single row is non-compliant. -/
theorem recommendations_iff_rate_below_95_witness :
    ∃ s, print_summary "us-east-1" "d" "out.csv"
          [mkRow "EC2::NatGateway" "nat-1"
            "arn:aws:ec2:us-east-1:*:natgateway/nat-1" "us-east-1" []]
        = some s
      ∧ (s.recommendationsShown = true
          ↔ ([mkRow "EC2::NatGateway" "nat-1"
                "arn:aws:ec2:us-east-1:*:natgateway/nat-1" "us-east-1"
                []].countP (fun r => r.compliant) : ℚ)
              / ([mkRow "EC2::NatGateway" "nat-1"
                    "arn:aws:ec2:us-east-1:*:natgateway/nat-1" "us-east-1"
                    []] : List AuditRow).length * 100 < 95) :=
  recommendations_iff_rate_below_95 "us-east-1" "d" "out.csv"
    [mkRow "EC2::NatGateway" "nat-1"
      "arn:aws:ec2:us-east-1:*:natgateway/nat-1" "us-east-1" []]
    (List.cons_ne_nil _ _)

end TagAudit
